import Mathlib

/-!
# Verification of the zeroclaw governance control plane

Shallow embedding of the security-relevant core of the zeroclaw repository:
the action policy engine (`crates/zeroclaw-core/src/control_plane.rs`), the
tamper-evident audit chain and the signed release rollout state machine
(`apps/zeroclaw-app/src-tauri/src/lib.rs`).

Machine integers are `Nat` with explicit `% 2^32` where the source relies on
32-bit wrapping (inside SHA-256).  Fallible Rust functions returning
`anyhow::Result` become `Except String` / `Option`.  External collaborators
(chrono time, UUID generation, Ed25519 point decoding and verification) are
passed in as explicit oracle parameters; everything else is translated
directly from the Rust source.
-/

set_option maxRecDepth 10000

namespace Zeroclaw

/-! ## SHA-256 (the `sha2` crate dependency, implemented concretely)

A byte-level SHA-256 over `List Nat` (each element a byte < 256), producing
the lowercase hex digest exactly as `sha256_hex` in
`apps/zeroclaw-app/src-tauri/src/lib.rs` does via `format!("{:x}", ...)`.
Everything is structural recursion so that the kernel can evaluate digests of
concrete messages. -/

/-- 32-bit right rotation on a `Nat` assumed `< 2^32`. -/
def rotr32 (n x : Nat) : Nat := ((x >>> n) ||| (x <<< (32 - n))) % 4294967296

/-- 32-bit bitwise complement. -/
def not32 (x : Nat) : Nat := Nat.xor x 4294967295

/-- SHA-256 round constants. -/
def shaK : List Nat :=
  [1116352408, 1899447441, 3049323471, 3921009573, 961987163,
   1508970993, 2453635748, 2870763221, 3624381080, 310598401,
   607225278, 1426881987, 1925078388, 2162078206, 2614888103,
   3248222580, 3835390401, 4022224774, 264347078, 604807628,
   770255983, 1249150122, 1555081692, 1996064986, 2554220882,
   2821834349, 2952996808, 3210313671, 3336571891, 3584528711,
   113926993, 338241895, 666307205, 773529912, 1294757372,
   1396182291, 1695183700, 1986661051, 2177026350, 2456956037,
   2730485921, 2820302411, 3259730800, 3345764771, 3516065817,
   3600352804, 4094571909, 275423344, 430227734, 506948616,
   659060556, 883997877, 958139571, 1322822218, 1537002063,
   1747873779, 1955562222, 2024104815, 2227730452, 2361852424,
   2428436474, 2756734187, 3204031479, 3329325298]

/-- The eight SHA-256 working registers. -/
structure ShaRegs where
  a : Nat
  b : Nat
  c : Nat
  d : Nat
  e : Nat
  f : Nat
  g : Nat
  h : Nat
deriving Repr, DecidableEq

/-- Initial SHA-256 register values. -/
def shaInit : ShaRegs :=
  ⟨1779033703, 3144134277, 1013904242, 2773480762,
   1359893119, 2600822924, 528734635, 1541459225⟩

/-- One SHA-256 compression round. -/
def shaRound (r : ShaRegs) (w k : Nat) : ShaRegs :=
  let s1 := Nat.xor (rotr32 6 r.e) (Nat.xor (rotr32 11 r.e) (rotr32 25 r.e))
  let ch := Nat.xor (Nat.land r.e r.f) (Nat.land (not32 r.e) r.g)
  let t1 := (r.h + s1 + ch + k + w) % 4294967296
  let s0 := Nat.xor (rotr32 2 r.a) (Nat.xor (rotr32 13 r.a) (rotr32 22 r.a))
  let maj := Nat.xor (Nat.land r.a r.b) (Nat.xor (Nat.land r.a r.c) (Nat.land r.b r.c))
  let t2 := (s0 + maj) % 4294967296
  ⟨(t1 + t2) % 4294967296, r.a, r.b, r.c, (r.d + t1) % 4294967296, r.e, r.f, r.g⟩

/-- Big-endian 4-byte groups to 32-bit words. -/
def bytesToWords : List Nat → List Nat
  | b0 :: b1 :: b2 :: b3 :: rest => (((b0 * 256 + b1) * 256 + b2) * 256 + b3) :: bytesToWords rest
  | _ => []

/-- Message-schedule extension: the first 16 words grow to 64. -/
def shaExtend (w16 : List Nat) : List Nat :=
  let step := fun (w : Array Nat) (i : Nat) =>
    let x15 := w.getD (i + 1) 0
    let x2 := w.getD (i + 14) 0
    let s0 := Nat.xor (rotr32 7 x15) (Nat.xor (rotr32 18 x15) (x15 >>> 3))
    let s1 := Nat.xor (rotr32 17 x2) (Nat.xor (rotr32 19 x2) (x2 >>> 10))
    w.push ((w.getD i 0 + s0 + w.getD (i + 9) 0 + s1) % 4294967296)
  ((List.range 48).foldl step w16.toArray).toList

/-- Compress one 64-byte block into the running registers. -/
def shaCompress (r : ShaRegs) (block : List Nat) : ShaRegs :=
  let ws := shaExtend (bytesToWords block)
  let fin := (ws.zip shaK).foldl (fun acc wk => shaRound acc wk.1 wk.2) r
  ⟨(r.a + fin.a) % 4294967296, (r.b + fin.b) % 4294967296,
   (r.c + fin.c) % 4294967296, (r.d + fin.d) % 4294967296,
   (r.e + fin.e) % 4294967296, (r.f + fin.f) % 4294967296,
   (r.g + fin.g) % 4294967296, (r.h + fin.h) % 4294967296⟩

/-- Big-endian bytes of `n` over `count` bytes. -/
def beBytes (count n : Nat) : List Nat :=
  (List.range count).map (fun i => (n >>> ((count - 1 - i) * 8)) % 256)

/-- SHA-256 padding: `0x80`, zeros to 56 mod 64, then the 64-bit bit length. -/
def shaPad (msg : List Nat) : List Nat :=
  let len := msg.length
  let zeros := (119 - len % 64) % 64
  msg ++ [0x80] ++ List.replicate zeros 0 ++ beBytes 8 (len * 8)

/-- Split into 64-byte blocks (fuel-based so the kernel can evaluate it). -/
def chunks64 : Nat → List Nat → List (List Nat)
  | 0, _ => []
  | _ + 1, [] => []
  | fuel + 1, l => l.take 64 :: chunks64 fuel (l.drop 64)

/-- Map a nibble to its lowercase hex character. -/
def nibbleChar (n : Nat) : Char :=
  if n < 10 then Char.ofNat (48 + n) else Char.ofNat (87 + n)

/-- Lowercase hex rendering of one 32-bit word. -/
def word32Hex (n : Nat) : String :=
  String.mk ((List.range 8).map (fun i => nibbleChar ((n >>> ((7 - i) * 4)) % 16)))

/-- SHA-256 digest of a byte list, rendered as 64 lowercase hex characters. -/
def sha256HexBytes (msg : List Nat) : String :=
  let padded := shaPad msg
  let r := (chunks64 padded.length padded).foldl shaCompress shaInit
  word32Hex r.a ++ word32Hex r.b ++ word32Hex r.c ++ word32Hex r.d ++
    word32Hex r.e ++ word32Hex r.f ++ word32Hex r.g ++ word32Hex r.h

/-- UTF-8 encoding of one scalar value. -/
def utf8Encode (c : Char) : List Nat :=
  let n := c.toNat
  if n < 0x80 then [n]
  else if n < 0x800 then [0xC0 + n / 64, 0x80 + n % 64]
  else if n < 0x10000 then [0xE0 + n / 4096, 0x80 + (n / 64) % 64, 0x80 + n % 64]
  else [0xF0 + n / 262144, 0x80 + (n / 4096) % 64, 0x80 + (n / 64) % 64, 0x80 + n % 64]

/-- UTF-8 bytes of a string. -/
def strBytes (s : String) : List Nat :=
  s.data.foldr (fun c acc => utf8Encode c ++ acc) []

/-- Source `sha256_hex` from the source: SHA-256 of the UTF-8 bytes, lowercase hex. -/
def sha256Hex (s : String) : String := sha256HexBytes (strBytes s)

/-! ## Audit chain (`append_audit_event` / `verify_audit_log`)

`AuditEvent` is the struct from the app crate; its `result` field is a plain
string there.  The canonical hash input is `serde_json::to_string` of a
`json!` object, whose `serde_json::Map` is a `BTreeMap`, so keys appear in
lexicographic order and strings carry serde_json escaping. -/

/-- The audit event record (all-string fields, `approval_id` optional). -/
structure AuditEvent where
  id : String
  timestamp : String
  actor_id : String
  actor_role : String
  action : String
  resource : String
  destination : String
  result : String
  reason : String
  receipt_id : String
  approval_id : Option String
  prev_hash : String
  hash : String
deriving Repr, DecidableEq

/-- serde_json escaping of one character inside a JSON string. -/
def jsonEscapeChar (c : Char) : List Char :=
  if c = '"' then ['\\', '"']
  else if c = '\\' then ['\\', '\\']
  else if c = '\x08' then ['\\', 'b']
  else if c = '\x09' then ['\\', 't']
  else if c = '\x0a' then ['\\', 'n']
  else if c = '\x0c' then ['\\', 'f']
  else if c = '\x0d' then ['\\', 'r']
  else if c.toNat < 0x20 then
    ['\\', 'u', '0', '0', nibbleChar (c.toNat / 16), nibbleChar (c.toNat % 16)]
  else [c]

/-- serde_json rendering of a JSON string literal. -/
def jsonStr (s : String) : String :=
  "\"" ++ String.mk (s.data.foldr (fun c acc => jsonEscapeChar c ++ acc) []) ++ "\""

/-- serde_json rendering of an `Option<String>` value. -/
def jsonOptStr : Option String → String
  | none => "null"
  | some s => jsonStr s

/-- The canonical JSON object hashed by `append_audit_event` /
`verify_audit_log`: every field except `hash`, including `prev_hash`, with
keys in `BTreeMap` (lexicographic) order, compactly serialized. -/
def canonicalUnsignedString (e : AuditEvent) : String :=
  "\x7b\"action\":" ++ jsonStr e.action ++
  ",\"actor_id\":" ++ jsonStr e.actor_id ++
  ",\"actor_role\":" ++ jsonStr e.actor_role ++
  ",\"approval_id\":" ++ jsonOptStr e.approval_id ++
  ",\"destination\":" ++ jsonStr e.destination ++
  ",\"id\":" ++ jsonStr e.id ++
  ",\"prev_hash\":" ++ jsonStr e.prev_hash ++
  ",\"reason\":" ++ jsonStr e.reason ++
  ",\"receipt_id\":" ++ jsonStr e.receipt_id ++
  ",\"resource\":" ++ jsonStr e.resource ++
  ",\"result\":" ++ jsonStr e.result ++
  ",\"timestamp\":" ++ jsonStr e.timestamp ++ "\x7d"

/-- Source `verify_audit_log`'s result struct. -/
structure AuditLogVerification where
  valid : Bool
  entries : Nat
  last_hash : Option String
  error : Option String
deriving Repr, DecidableEq

/-- Hash of the last event, or the fallback (`"genesis"` at the top level). -/
def lastOr (p : String) (log : List AuditEvent) : String :=
  (log.getLast?.map AuditEvent.hash).getD p

/-- Source `append_audit_event` restricted to its list-of-events content: set
`prev_hash` from the last event (or `"genesis"`), hash the canonical object,
append one event at the end of the file. -/
def appendAuditEvent (log : List AuditEvent) (event : AuditEvent) : List AuditEvent :=
  let e1 := { event with prev_hash := lastOr "genesis" log }
  log ++ [{ e1 with hash := sha256Hex (canonicalUnsignedString e1) }]

/-- A log consisting solely of events appended by `append_audit_event`. -/
def appendAll (inputs : List AuditEvent) : List AuditEvent :=
  inputs.foldl appendAuditEvent []

/-- The verification walk of `verify_audit_log`, tracking the expected
`prev_hash`. -/
def verifyGo (total : Nat) : String → List AuditEvent → AuditLogVerification
  | prev, [] => ⟨true, total, some prev, none⟩
  | prev, e :: rest =>
    if e.prev_hash ≠ prev then
      ⟨false, total, some prev, some ("chain mismatch at event " ++ e.id)⟩
    else if sha256Hex (canonicalUnsignedString e) ≠ e.hash then
      ⟨false, total, some prev, some ("hash mismatch at event " ++ e.id)⟩
    else verifyGo total e.hash rest

/-- Source `verify_audit_log`: an empty log is valid, otherwise walk the chain. -/
def verifyAuditLog (log : List AuditEvent) : AuditLogVerification :=
  if log.isEmpty then ⟨true, 0, none, none⟩
  else verifyGo log.length "genesis" log

/-- Well-formedness of a log suffix given the expected incoming hash. -/
def goodFrom : String → List AuditEvent → Prop
  | _, [] => True
  | p, e :: rest =>
    e.prev_hash = p ∧ e.hash = sha256Hex (canonicalUnsignedString e) ∧ goodFrom e.hash rest

/-- Altering the `action` field of the event at one index. -/
def alterActionAt : List AuditEvent → Nat → String → List AuditEvent
  | [], _, _ => []
  | e :: rest, 0, a => { e with action := a } :: rest
  | e :: rest, n + 1, a => e :: alterActionAt rest n a

/-- A concrete event used to witness the audit theorems (its `prev_hash` and
`hash` inputs are overwritten by `append_audit_event`). -/
def sampleEvent : AuditEvent :=
  ⟨"e1", "t0", "a1", "owner", "do", "res", "dst", "allowed", "ok", "r1",
   none, "", ""⟩

/-! ## Control plane (`crates/zeroclaw-core/src/control_plane.rs`)

The store's load→mutate→save cycle is modelled as pure state passing.  The
chrono clock (`Utc::now`, `parse_rfc3339`, `to_rfc3339`) is a `TimeEnv`
oracle; the two `uuid::Uuid::new_v4()` draws of `evaluate_action` are the
explicit `receiptId` / `approvalIdFresh` arguments. -/

/-- The chrono collaborator: current instant, RFC3339 parsing, formatting. -/
structure TimeEnv where
  now : Int
  parse : String → Option Int
  fmt : Int → String

inductive AccessPlan
  | trial
  | personal
  | org
deriving Repr, DecidableEq

inductive WorkspaceView
  | personal
  | org
deriving Repr, DecidableEq

structure AccessState where
  plan : AccessPlan
  active_view : WorkspaceView
  trial_started_at : Option String
  trial_expires_at : Option String
  updated_at : String
deriving Repr, DecidableEq

/-- Source `AccessState::is_trial_active`. -/
def isTrialActive (env : TimeEnv) (a : AccessState) : Bool :=
  (a.plan = AccessPlan.trial : Bool) &&
    (match a.trial_expires_at.bind env.parse with
     | some expires => expires > env.now
     | none => false)

/-- Source `AccessState::can_access_view`. -/
def canAccessView (env : TimeEnv) (a : AccessState) (view : WorkspaceView) : Bool :=
  match a.plan with
  | AccessPlan.trial => isTrialActive env a
  | AccessPlan.personal => view = WorkspaceView.personal
  | AccessPlan.org => view = WorkspaceView.org

/-- Stands in for the `BTreeMap<String, Value>` context maps, which the
control-plane logic only ever copies around. -/
abbrev ContextMap := List (String × String)

structure PolicyRule where
  id : String
  actor_roles : List String
  actions : List String
  resources : List String
  destinations : List String
  require_approval : Bool
  enabled : Bool
deriving Repr, DecidableEq

structure ActionPolicyRequest where
  actor_id : String
  actor_role : String
  action : String
  resource : String
  destination : String
  approval_id : Option String
  occurred_at : Option String
  context : ContextMap
deriving Repr, DecidableEq

structure ActionPolicyDecision where
  allowed : Bool
  requires_approval : Bool
  reason : String
  approval_id : Option String
  receipt_id : String
deriving Repr, DecidableEq

inductive ReceiptResult
  | allowed
  | denied
  | pendingApproval
deriving Repr, DecidableEq

structure ActionReceipt where
  id : String
  timestamp : String
  actor_id : String
  actor_role : String
  action : String
  resource : String
  destination : String
  result : ReceiptResult
  reason : String
  context : ContextMap
deriving Repr, DecidableEq

inductive ApprovalStatus
  | pending
  | approved
  | rejected
deriving Repr, DecidableEq

structure ApprovalRequest where
  id : String
  created_at : String
  actor_id : String
  actor_role : String
  action : String
  resource : String
  destination : String
  status : ApprovalStatus
  decided_by : Option String
  decided_at : Option String
  reason : Option String
  context : ContextMap
deriving Repr, DecidableEq

structure RetentionPolicy where
  receipts_days : Nat
  approvals_days : Nat
deriving Repr, DecidableEq

structure ControlPlaneState where
  version : Nat
  access_state : AccessState
  policy_rules : List PolicyRule
  retention : RetentionPolicy
  receipts : List ActionReceipt
  approvals : List ApprovalRequest
deriving Repr, DecidableEq

/-- Source `matches_filter`: empty list or a `"*"`/exact entry matches. -/
def matchesFilter (filters : List String) (value : String) : Bool :=
  filters.isEmpty || filters.any (fun filter => filter == "*" || filter == value)

/-- Source `PolicyRule::matches`. -/
def ruleMatches (r : PolicyRule) (request : ActionPolicyRequest) : Bool :=
  r.enabled
    && matchesFilter r.actor_roles request.actor_role
    && matchesFilter r.actions request.action
    && matchesFilter r.resources request.resource
    && matchesFilter r.destinations request.destination

/-- Source `push_receipt`: insert at index 0, truncate at 10,000.  The generated
UUID is the `receiptId` argument. -/
def pushReceipt (env : TimeEnv) (receiptId : String) (s : ControlPlaneState)
    (request : ActionPolicyRequest) (result : ReceiptResult) (reason : String) :
    ControlPlaneState :=
  let receipts : List ActionReceipt :=
    { id := receiptId, timestamp := env.fmt env.now, actor_id := request.actor_id,
      actor_role := request.actor_role, action := request.action,
      resource := request.resource, destination := request.destination,
      result := result, reason := reason, context := request.context } :: s.receipts
  { s with receipts := if receipts.length > 10000 then receipts.take 10000 else receipts }

/-- The approval/request field comparison inside `evaluate_action`. -/
def approvalMatchesRequest (a : ApprovalRequest) (request : ActionPolicyRequest) : Bool :=
  a.actor_id == request.actor_id
    && a.actor_role == request.actor_role
    && a.action == request.action
    && a.resource == request.resource
    && a.destination == request.destination

/-- Source `ControlPlaneStore::evaluate_action` as a pure state transformer (the
load/save cycle made explicit).  Returns the saved state and the decision. -/
def evaluateAction (env : TimeEnv) (receiptId approvalIdFresh : String)
    (s : ControlPlaneState) (request : ActionPolicyRequest) :
    ControlPlaneState × ActionPolicyDecision :=
  if canAccessView env s.access_state s.access_state.active_view then
    match s.policy_rules.find? (fun rule => ruleMatches rule request) with
    | some rule =>
      if rule.require_approval then
        match request.approval_id with
        | some existingApprovalId =>
          match s.approvals.find? (fun approval => approval.id == existingApprovalId) with
          | some approval =>
            if approvalMatchesRequest approval request then
              match approval.status with
              | ApprovalStatus.approved =>
                (pushReceipt env receiptId s request ReceiptResult.allowed "approved action",
                 ⟨true, false, "approved action", some existingApprovalId, receiptId⟩)
              | ApprovalStatus.rejected =>
                (pushReceipt env receiptId s request ReceiptResult.denied "approval rejected",
                 ⟨false, false, "approval rejected", some existingApprovalId, receiptId⟩)
              | ApprovalStatus.pending =>
                (pushReceipt env receiptId s request ReceiptResult.pendingApproval
                   "approval is still pending",
                 ⟨false, true, "approval is still pending", some existingApprovalId, receiptId⟩)
            else
              (pushReceipt env receiptId s request ReceiptResult.denied
                 "approval does not match action request",
               ⟨false, false, "approval does not match action request",
                some existingApprovalId, receiptId⟩)
          | none =>
            (pushReceipt env receiptId s request ReceiptResult.denied "approval not found",
             ⟨false, false, "approval not found", some existingApprovalId, receiptId⟩)
        | none =>
          let newApproval : ApprovalRequest :=
            { id := approvalIdFresh,
              created_at := env.fmt ((request.occurred_at.bind env.parse).getD env.now),
              actor_id := request.actor_id, actor_role := request.actor_role,
              action := request.action, resource := request.resource,
              destination := request.destination, status := ApprovalStatus.pending,
              decided_by := none, decided_at := none, reason := none,
              context := request.context }
          (pushReceipt env receiptId
             { s with approvals := s.approvals ++ [newApproval] } request
             ReceiptResult.pendingApproval "action requires approval",
           ⟨false, true, "action requires approval", some approvalIdFresh, receiptId⟩)
      else
        (pushReceipt env receiptId s request ReceiptResult.allowed "policy allowed",
         ⟨true, false, "policy allowed", none, receiptId⟩)
    | none =>
      (pushReceipt env receiptId s request ReceiptResult.denied "no matching policy rule",
       ⟨false, false, "no matching policy rule", none, receiptId⟩)
  else
    (pushReceipt env receiptId s request ReceiptResult.denied
       "access plan does not permit the current workspace view",
     ⟨false, false, "access plan does not permit the current workspace view",
      none, receiptId⟩)

/-- The `iter_mut().find` update inside `resolve_approval`: update the first
approval with the given id, returning the new list and the updated record. -/
def resolveInList (newStatus : ApprovalStatus) (role decidedAt : String)
    (reason : Option String) (approvalId : String) :
    List ApprovalRequest → Option (List ApprovalRequest × ApprovalRequest)
  | [] => none
  | a :: rest =>
    if a.id == approvalId then
      let a' : ApprovalRequest :=
        { a with
          status := newStatus
          decided_by := some role
          decided_at := some decidedAt
          reason := reason }
      some (a' :: rest, a')
    else
      (resolveInList newStatus role decidedAt reason approvalId rest).map
        (fun p => (a :: p.1, p.2))

/-- Source `ControlPlaneStore::resolve_approval` as a pure state transformer.  Note
that the source never inspects the current status before overwriting it. -/
def resolveApproval (env : TimeEnv) (s : ControlPlaneState)
    (approvalId approverRole : String) (approved : Bool) (reason : Option String) :
    Except String (ControlPlaneState × ApprovalRequest) :=
  if approverRole == "owner" || approverRole == "admin" then
    match resolveInList (if approved then ApprovalStatus.approved else ApprovalStatus.rejected)
        approverRole (env.fmt env.now) reason approvalId s.approvals with
    | some (approvals, out) => Except.ok ({ s with approvals := approvals }, out)
    | none => Except.error ("approval " ++ approvalId ++ " not found")
  else
    Except.error "only owner/admin can resolve approvals"

/-- Source `default_policy_rules`, rule by rule. -/
def ownerFullAccess : PolicyRule :=
  ⟨"owner-full-access", ["owner"], ["*"], ["*"], ["*"], false, true⟩

def adminFullAccess : PolicyRule :=
  ⟨"admin-full-access", ["admin"], ["*"], ["*"], ["*"], false, true⟩

def operatorRuntime : PolicyRule :=
  ⟨"operator-runtime", ["operator"],
   ["runtime.start", "runtime.stop", "runtime.send_message", "background.enable",
    "background.disable", "logs.read", "logs.export", "receipts.read"],
   ["*"], ["local", "provider", "workspace"], false, true⟩

def operatorGovernedChanges : PolicyRule :=
  ⟨"operator-governed-changes", ["operator"],
   ["integration.install", "integration.enable", "integration.disable",
    "skills.install", "skills.enable", "skills.disable", "skills.remove",
    "mcp.install", "mcp.enable", "mcp.disable", "mcp.update_config", "mcp.remove"],
   ["*"], ["*"], true, true⟩

def viewerReadonly : PolicyRule :=
  ⟨"viewer-readonly", ["viewer"], ["logs.read", "receipts.read", "profiles.read"],
   ["*"], ["local", "workspace"], false, true⟩

def defaultPolicyRules : List PolicyRule :=
  [ownerFullAccess, adminFullAccess, operatorRuntime, operatorGovernedChanges,
   viewerReadonly]

/-- The `ApprovalRequest` freshly created by `evaluate_action` when a
`require_approval` rule matches and no `approval_id` was supplied (named for
use in proofs; definitionally the literal inside `evaluateAction`). -/
def newApprovalOf (env : TimeEnv) (aidf : String) (req : ActionPolicyRequest) :
    ApprovalRequest :=
  { id := aidf,
    created_at := env.fmt ((req.occurred_at.bind env.parse).getD env.now),
    actor_id := req.actor_id, actor_role := req.actor_role, action := req.action,
    resource := req.resource, destination := req.destination,
    status := ApprovalStatus.pending, decided_by := none, decided_at := none,
    reason := none, context := req.context }

/-- Sample data for the control-plane witnesses: an `Org` plan with the
`Org` view active (accessible without reference to the clock). -/
def orgAccess : AccessState :=
  ⟨AccessPlan.org, WorkspaceView.org, none, none, "t0"⟩

def emptyEnv : TimeEnv := ⟨0, fun _ => none, fun _ => "ts"⟩

def sampleState : ControlPlaneState :=
  ⟨1, orgAccess, defaultPolicyRules, ⟨30, 90⟩, [], []⟩

def ghostReq : ActionPolicyRequest :=
  ⟨"u1", "ghost", "x.y", "res", "dst", none, none, []⟩

/-- The field overwrite applied by `resolve_approval` to the found record. -/
def decideApproval (st : ApprovalStatus) (role dAt : String) (reason : Option String)
    (a : ApprovalRequest) : ApprovalRequest :=
  { a with
    status := st
    decided_by := some role
    decided_at := some dAt
    reason := reason }

/-- The approved record produced by resolving the fresh approval of C4. -/
def resolvedApprovalOf (env1 env2 : TimeEnv) (aidFresh : String)
    (req : ActionPolicyRequest) : ApprovalRequest :=
  decideApproval ApprovalStatus.approved "admin" (env2.fmt env2.now) none
    (newApprovalOf env1 aidFresh req)

/-- Concrete data for the C5/C6 witnesses and counterexample. -/
def decidedApproval : ApprovalRequest :=
  ⟨"ap9", "t0", "op", "operator", "a", "r", "d", ApprovalStatus.approved,
   some "admin", some "t1", some "ok", []⟩

def stateWithDecided : ControlPlaneState :=
  ⟨1, orgAccess, defaultPolicyRules, ⟨30, 90⟩, [], [decidedApproval]⟩

def governedReq : ActionPolicyRequest :=
  ⟨"operator-a", "operator", "integration.enable", "integration:slack",
   "api.slack.com", none, none, []⟩

def mismatchApproval : ApprovalRequest :=
  ⟨"ap5", "t0", "operator-a", "operator", "integration.enable", "integration:slack",
   "api.slack.com", ApprovalStatus.approved, some "admin", some "t1", none, []⟩

def stateWithMismatch : ControlPlaneState :=
  ⟨1, orgAccess, defaultPolicyRules, ⟨30, 90⟩, [], [mismatchApproval]⟩

def governedReqOther : ActionPolicyRequest :=
  ⟨"operator-a", "operator", "integration.enable", "integration:teams",
   "api.slack.com", some "ap5", none, []⟩

def governedReqMatch : ActionPolicyRequest :=
  ⟨"operator-a", "operator", "integration.enable", "integration:slack",
   "api.slack.com", some "ap5", none, []⟩

deriving instance DecidableEq for Except

/-! ## Signed release rollout (`apps/zeroclaw-app/src-tauri/src/lib.rs`)

The base64 engines mirror the `base64` crate configurations the source uses
(`BASE64_STANDARD`: canonical padding, no trailing bits; `URL_SAFE_NO_PAD`);
Ed25519 point decoding and verification are the `EdOracle` collaborator. -/

inductive RolloutRing
  | pilot
  | group
  | all
deriving Repr, DecidableEq

structure ReleaseDescriptor where
  release_id : String
  version : String
  checksum_sha256 : String
  signature : Option String
  sbom_checksum_sha256 : Option String
  ring : RolloutRing
  staged_at : String
deriving Repr, DecidableEq

structure RolloutState where
  version : Nat
  current_release : Option ReleaseDescriptor
  previous_release : Option ReleaseDescriptor
  staged_release : Option ReleaseDescriptor
  signature_required : Bool
  trusted_signers : List String
  last_verified_signer : Option String
  last_promoted_at : Option String
  last_verification_error : Option String
  updated_at : String
deriving Repr, DecidableEq

/-- Source `next_rollout_ring`. -/
def nextRolloutRing : RolloutRing → RolloutRing
  | RolloutRing.pilot => RolloutRing.group
  | RolloutRing.group => RolloutRing.all
  | RolloutRing.all => RolloutRing.all

/-- Source `format!("{:?}", ring).to_lowercase()`. -/
def ringLabel : RolloutRing → String
  | RolloutRing.pilot => "pilot"
  | RolloutRing.group => "group"
  | RolloutRing.all => "all"

/-- Source `str::trim`, over the character list (kernel-reducible, unlike
`String.trim`). -/
def rustTrim (s : String) : String :=
  String.mk (((s.data.dropWhile Char.isWhitespace).reverse.dropWhile
    Char.isWhitespace).reverse)

/-- Standard base64 alphabet. -/
def b64StdChar (c : Char) : Option Nat :=
  if 'A' ≤ c ∧ c ≤ 'Z' then some (c.toNat - 65)
  else if 'a' ≤ c ∧ c ≤ 'z' then some (c.toNat - 97 + 26)
  else if '0' ≤ c ∧ c ≤ '9' then some (c.toNat - 48 + 52)
  else if c = '+' then some 62
  else if c = '/' then some 63
  else none

/-- URL-safe base64 alphabet. -/
def b64UrlChar (c : Char) : Option Nat :=
  if 'A' ≤ c ∧ c ≤ 'Z' then some (c.toNat - 65)
  else if 'a' ≤ c ∧ c ≤ 'z' then some (c.toNat - 97 + 26)
  else if '0' ≤ c ∧ c ≤ '9' then some (c.toNat - 48 + 52)
  else if c = '-' then some 62
  else if c = '_' then some 63
  else none

/-- Source `BASE64_STANDARD.decode`: canonical padding, no stray trailing bits. -/
def b64StdGroups : List Char → Option (List Nat)
  | [] => some []
  | c1 :: c2 :: c3 :: c4 :: rest =>
    match b64StdChar c1, b64StdChar c2 with
    | some a, some b =>
      if c3 = '=' then
        if c4 = '=' ∧ rest = [] ∧ b % 16 = 0 then some [a * 4 + b / 16] else none
      else
        match b64StdChar c3 with
        | some c =>
          if c4 = '=' then
            if rest = [] ∧ c % 4 = 0 then some [a * 4 + b / 16, (b % 16) * 16 + c / 4]
            else none
          else
            match b64StdChar c4 with
            | some d =>
              (b64StdGroups rest).map
                (fun tl => (a * 4 + b / 16) :: ((b % 16) * 16 + c / 4) :: ((c % 4) * 64 + d) :: tl)
            | none => none
        | none => none
    | _, _ => none
  | _ => none

/-- Source `URL_SAFE_NO_PAD.decode`: no padding characters at all. -/
def b64UrlGroups : List Char → Option (List Nat)
  | [] => some []
  | [_] => none
  | [c1, c2] =>
    match b64UrlChar c1, b64UrlChar c2 with
    | some a, some b => if b % 16 = 0 then some [a * 4 + b / 16] else none
    | _, _ => none
  | [c1, c2, c3] =>
    match b64UrlChar c1, b64UrlChar c2, b64UrlChar c3 with
    | some a, some b, some c =>
      if c % 4 = 0 then some [a * 4 + b / 16, (b % 16) * 16 + c / 4] else none
    | _, _, _ => none
  | c1 :: c2 :: c3 :: c4 :: rest =>
    match b64UrlChar c1, b64UrlChar c2, b64UrlChar c3, b64UrlChar c4 with
    | some a, some b, some c, some d =>
      (b64UrlGroups rest).map
        (fun tl => (a * 4 + b / 16) :: ((b % 16) * 16 + c / 4) :: ((c % 4) * 64 + d) :: tl)
    | _, _, _, _ => none

/-- Source `decode_base64_flexible`: standard first, then URL-safe-no-pad. -/
def decodeBase64Flexible (raw : String) : Option (List Nat) :=
  let trimmed := rustTrim raw
  match b64StdGroups trimmed.data with
  | some bytes => some bytes
  | none => b64UrlGroups trimmed.data

/-- Source `str::split_once(':')`. -/
def splitOnceColonAux : List Char → Option (List Char × List Char)
  | [] => none
  | c :: rest =>
    if c = ':' then some ([], rest)
    else (splitOnceColonAux rest).map (fun p => (c :: p.1, p.2))

def splitOnceColon (s : String) : Option (String × String) :=
  (splitOnceColonAux s.data).map (fun p => (String.mk p.1, String.mk p.2))

/-- Source `parse_signer_entry`. -/
def parseSignerEntry (raw : String) (index : Nat) : Except String (String × List Nat) :=
  let trimmed := rustTrim raw
  if trimmed = "" then
    Except.error ("trusted_signers[" ++ toString index ++ "] is empty")
  else
    let pair :=
      match splitOnceColon trimmed with
      | some (left, right) => (rustTrim left, rustTrim right)
      | none => ("signer-" ++ toString (index + 1), trimmed)
    if pair.1 = "" then
      Except.error ("trusted_signers[" ++ toString index ++ "] key id is empty")
    else
      match decodeBase64Flexible pair.2 with
      | none =>
        Except.error ("trusted_signers[" ++ toString index ++ "] key is not valid base64")
      | some bytes =>
        if bytes.length = 32 then Except.ok (pair.1, bytes)
        else Except.error ("trusted_signers[" ++ toString index ++ "] key must decode to 32 bytes")

/-- Source `parse_signature_value`. -/
def parseSignatureValue (raw : String) : Except String (Option String × List Nat) :=
  let trimmed := rustTrim raw
  if trimmed = "" then Except.error "signature is empty"
  else
    match splitOnceColon trimmed with
    | some (left, right) =>
      match decodeBase64Flexible right with
      | some bytes =>
        if bytes.length = 64 then
          Except.ok (if rustTrim left = "" then none else some (rustTrim left), bytes)
        else Except.error "signature must decode to 64 bytes"
      | none =>
        match decodeBase64Flexible trimmed with
        | some bytes =>
          if bytes.length = 64 then Except.ok (none, bytes)
          else Except.error "signature must decode to 64 bytes"
        | none => Except.error "failed to decode base64 payload"
    | none =>
      match decodeBase64Flexible trimmed with
      | some bytes =>
        if bytes.length = 64 then Except.ok (none, bytes)
        else Except.error "signature must decode to 64 bytes"
      | none => Except.error "failed to decode base64 payload"

/-- Source `release_signing_payload`. -/
def releaseSigningPayload (release : ReleaseDescriptor) : String :=
  "release_id=" ++ release.release_id ++
  "\nversion=" ++ release.version ++
  "\nchecksum_sha256=" ++ release.checksum_sha256 ++
  "\nsbom_checksum_sha256=" ++ (release.sbom_checksum_sha256.getD "") ++
  "\nring=" ++ ringLabel release.ring

def isAsciiHexDigit (c : Char) : Bool :=
  ('0' ≤ c ∧ c ≤ '9') || ('a' ≤ c ∧ c ≤ 'f') || ('A' ≤ c ∧ c ≤ 'F')

/-- Source `validate_sha256_hex`. -/
def validateSha256Hex (raw : String) (field : String) : Except String Unit :=
  if raw.length == 64 && raw.data.all isAsciiHexDigit then Except.ok ()
  else Except.error (field ++ " must be a lowercase/uppercase 64-char SHA-256 hex string")

/-- The ed25519-dalek collaborator: `VerifyingKey::from_bytes` success and
`verify` success, abstracted over the key bytes. -/
structure EdOracle where
  keyValid : List Nat → Bool
  verify : List Nat → String → List Nat → Bool

/-- The signer loop of `verify_release_signature`: each entry is parsed
*before* the key-hint filter, so a malformed entry aborts the whole
verification with its parse error. -/
def verifySignersLoop (ed : EdOracle) (keyHint : Option String) (message : String)
    (signature : List Nat) : Nat → List String → Except String String
  | _, [] => Except.error "release signature verification failed for staged release"
  | index, entry :: rest =>
    match parseSignerEntry entry index with
    | Except.error e => Except.error e
    | Except.ok (keyId, keyBytes) =>
      if keyHint.any (fun hint => hint != keyId) then
        verifySignersLoop ed keyHint message signature (index + 1) rest
      else if ed.keyValid keyBytes = false then
        Except.error ("trusted signer " ++ keyId ++ " has invalid key material")
      else if ed.verify keyBytes message signature then Except.ok keyId
      else verifySignersLoop ed keyHint message signature (index + 1) rest

/-- Source `verify_release_signature`. -/
def verifyReleaseSignature (ed : EdOracle) (rollout : RolloutState)
    (release : ReleaseDescriptor) : Except String String :=
  match validateSha256Hex release.checksum_sha256 "checksum_sha256" with
  | Except.error e => Except.error e
  | Except.ok _ =>
    match (match release.sbom_checksum_sha256 with
           | some sbom => validateSha256Hex sbom "sbom_checksum_sha256"
           | none => Except.ok ()) with
    | Except.error e => Except.error e
    | Except.ok _ =>
      if rollout.signature_required then
        match release.signature with
        | none => Except.error "release signature is required but missing"
        | some signatureRaw =>
          match parseSignatureValue signatureRaw with
          | Except.error e => Except.error e
          | Except.ok (keyHint, signatureBytes) =>
            if rollout.trusted_signers.isEmpty then
              Except.error "signature_required=true but trusted_signers is empty"
            else
              verifySignersLoop ed keyHint (releaseSigningPayload release)
                signatureBytes 0 rollout.trusted_signers
      else Except.ok "signature_not_required"

/-- Source `rollout_promote` after load (lines 3158-3187): the promotion branch on
the in-memory state, returning the state that gets persisted and the
command result.  If nothing was staged and no current release exists,
nothing is saved and an error is returned. -/
def rolloutPromote (ed : EdOracle) (nowStr : String) (rollout : RolloutState) :
    RolloutState × Except String Unit :=
  match rollout.staged_release with
  | some staged =>
    let r1 := { rollout with staged_release := none }
    match verifyReleaseSignature ed r1 staged with
    | Except.ok signer =>
      ({ r1 with
          last_verified_signer := some signer
          last_verification_error := none
          previous_release := r1.current_release
          current_release := some staged
          last_promoted_at := some nowStr
          updated_at := nowStr }, Except.ok ())
    | Except.error e =>
      ({ r1 with
          last_verification_error := some e
          updated_at := nowStr },
       Except.error ("staged release failed signature verification: " ++ e))
  | none =>
    match rollout.current_release with
    | some current =>
      ({ rollout with
          current_release := some { current with ring := nextRolloutRing current.ring }
          last_promoted_at := some nowStr
          updated_at := nowStr }, Except.ok ())
    | none => (rollout, Except.error "no staged or current release available to promote")

/-- The legacy-config self-heal of `rollout_state_load`: reset the signing
policy when *no* trusted signer entry parses. -/
def normalizeRolloutState (s : RolloutState) : RolloutState :=
  if s.signature_required then
    if s.trusted_signers.enum.any (fun p => (parseSignerEntry p.2 p.1).isOk) then s
    else
      { s with
        signature_required := false
        trusted_signers := []
        last_verification_error := some
          "legacy signer configuration detected; signing policy reset and requires reconfiguration" }
  else s

/-- 32 zero bytes, standard base64 with canonical padding. -/
def validSignerEntry : String := "k1:AAAAAAAAAAAAAAAAAAAAAAAAAAAAAAAAAAAAAAAAAAA="

def constFalseEd : EdOracle := ⟨fun _ => true, fun _ _ _ => false⟩

def constTrueEd : EdOracle := ⟨fun _ => true, fun _ _ _ => true⟩

def hex64 : String :=
  "0000000000000000000000000000000000000000000000000000000000000000"

/-- 64 zero bytes, standard base64 with canonical padding. -/
def sigB64 : String :=
  "AAAAAAAAAAAAAAAAAAAAAAAAAAAAAAAAAAAAAAAAAAAAAAAAAAAAAAAAAAAAAAAAAAAAAAAAAAAAAAAAAAAAAA=="

def stagedRelease : ReleaseDescriptor :=
  ⟨"rel-1", "1.0.0", hex64, some sigB64, none, RolloutRing.pilot, "t0"⟩

def failingRollout : RolloutState :=
  ⟨1, none, none, some stagedRelease, true, [validSignerEntry], none, none, none, "t0"⟩

def mixedRollout : RolloutState :=
  ⟨1, none, none, none, true, ["not base64!!", validSignerEntry], none, none, none, "t0"⟩

def legacyRollout : RolloutState :=
  ⟨1, none, none, none, true, ["??"], none, none, none, "t0"⟩

def exceptIsOk {e a : Type} : Except e a → Bool
  | Except.ok _ => true
  | Except.error _ => false

def hintedSig : String := "k1:" ++ sigB64

def hintedRelease : ReleaseDescriptor :=
  ⟨"rel-2", "1.0.1", hex64, some hintedSig, none, RolloutRing.pilot, "t0"⟩

/-- One malformed (empty) entry ahead of a parseable signer whose id matches
the signature key hint. -/
def mixedSignersRollout : RolloutState :=
  ⟨1, none, none, some hintedRelease, true, ["", validSignerEntry],
   none, none, none, "t0"⟩

/-! ## Theorems -/

/-- FIPS 180-4 test vector, pinning the implementation. -/
example : sha256Hex "abc" =
    "ba7816bf8f01cfea414140de5dae2223b00361a396177a9cb410ff61f20015ad" := by
  decide

theorem lastOr_cons (p : String) (e : AuditEvent) (rest : List AuditEvent) :
    lastOr p (e :: rest) = lastOr e.hash rest := by
  cases rest with
  | nil => rfl
  | cons f fs => simp [lastOr, List.getLast?]

theorem goodFrom_append {p : String} {l : List AuditEvent} {x : AuditEvent}
    (hg : goodFrom p l) (hprev : x.prev_hash = lastOr p l)
    (hhash : x.hash = sha256Hex (canonicalUnsignedString x)) :
    goodFrom p (l ++ [x]) := by
  induction l generalizing p with
  | nil => exact ⟨hprev, hhash, trivial⟩
  | cons e rest ih =>
    obtain ⟨h1, h2, h3⟩ := hg
    exact ⟨h1, h2, ih h3 (by rw [hprev, lastOr_cons])⟩

theorem appendAuditEvent_good {p : String} {l : List AuditEvent} (e : AuditEvent)
    (hg : goodFrom p l) (hp : lastOr "genesis" l = lastOr p l) :
    goodFrom p (appendAuditEvent l e) := by
  unfold appendAuditEvent
  refine goodFrom_append hg ?_ ?_
  · exact hp
  · rfl

theorem appendAll_good (inputs : List AuditEvent) :
    goodFrom "genesis" (appendAll inputs) := by
  suffices h : ∀ l, goodFrom "genesis" l →
      goodFrom "genesis" (inputs.foldl appendAuditEvent l) by
    exact h [] trivial
  induction inputs with
  | nil => intro l hl; exact hl
  | cons e rest ih =>
    intro l hl
    exact ih _ (appendAuditEvent_good e hl rfl)

theorem verifyGo_of_good (total : Nat) {p : String} {l : List AuditEvent}
    (hg : goodFrom p l) :
    verifyGo total p l = ⟨true, total, some (lastOr p l), none⟩ := by
  induction l generalizing p with
  | nil => rfl
  | cons e rest ih =>
    obtain ⟨h1, h2, h3⟩ := hg
    rw [lastOr_cons]
    simp only [verifyGo]
    rw [if_neg (by simp [h1]), if_neg (by simp [h2])]
    exact ih h3

theorem goodFrom_head {p : String} {l : List AuditEvent} (hg : goodFrom p l)
    (h : 0 < l.length) : (l.get ⟨0, h⟩).prev_hash = p := by
  cases l with
  | nil => exact absurd h (by simp)
  | cons e rest => exact hg.1

theorem goodFrom_hash_get {p : String} {l : List AuditEvent} (hg : goodFrom p l) :
    ∀ i (h : i < l.length),
      (l.get ⟨i, h⟩).hash = sha256Hex (canonicalUnsignedString (l.get ⟨i, h⟩)) := by
  induction l generalizing p with
  | nil => intro i h; exact absurd h (by simp)
  | cons e rest ih =>
    intro i h
    cases i with
    | zero => exact hg.2.1
    | succ j => exact ih hg.2.2 j (Nat.lt_of_succ_lt_succ h)

theorem goodFrom_link {p : String} {l : List AuditEvent} (hg : goodFrom p l) :
    ∀ i (h : i + 1 < l.length),
      (l.get ⟨i + 1, h⟩).prev_hash = (l.get ⟨i, Nat.lt_of_succ_lt h⟩).hash := by
  induction l generalizing p with
  | nil => intro i h; exact absurd h (by simp)
  | cons e rest ih =>
    intro i h
    cases i with
    | zero => exact goodFrom_head hg.2.2 (Nat.lt_of_succ_lt_succ h)
    | succ j => exact ih hg.2.2 j (Nat.lt_of_succ_lt_succ h)

theorem length_alterActionAt (l : List AuditEvent) (i : Nat) (a : String) :
    (alterActionAt l i a).length = l.length := by
  induction l generalizing i with
  | nil => rfl
  | cons e rest ih =>
    cases i with
    | zero => rfl
    | succ j => simpa [alterActionAt] using ih j

theorem verifyGo_tamper (total : Nat) {p : String} {l : List AuditEvent}
    (hg : goodFrom p l) (i : Nat) (a : String) (hi : i < l.length)
    (hbad : sha256Hex (canonicalUnsignedString { l.get ⟨i, hi⟩ with action := a })
      ≠ (l.get ⟨i, hi⟩).hash) :
    verifyGo total p (alterActionAt l i a) =
      ⟨false, total, some (l.get ⟨i, hi⟩).prev_hash,
        some ("hash mismatch at event " ++ (l.get ⟨i, hi⟩).id)⟩ := by
  induction l generalizing p i with
  | nil => exact absurd hi (by simp)
  | cons e rest ih =>
    cases i with
    | zero =>
      have hpe : e.prev_hash = p := hg.1
      show verifyGo total p ({ e with action := a } :: rest) = _
      simp only [verifyGo]
      rw [if_neg (by simp [hpe])]
      rw [if_pos (by exact hbad)]
      simp [hpe]
    | succ j =>
      show verifyGo total p (e :: alterActionAt rest j a) = _
      simp only [verifyGo]
      rw [if_neg (by simp [hg.1]), if_neg (by simp [hg.2.1])]
      exact ih hg.2.2 j (Nat.lt_of_succ_lt_succ hi) hbad

/-- C2: in every audit log produced solely by `append_audit_event`, the first
event's `prev_hash` is the literal `"genesis"`, every later event's
`prev_hash` equals the hash of the event appended immediately before it, and
every event's `hash` is the SHA-256 lowercase hex of the canonical JSON of
all its fields except `hash`, including `prev_hash`. -/
theorem audit_append_chain_invariant (inputs : List AuditEvent) :
    (∀ h : 0 < (appendAll inputs).length,
      ((appendAll inputs).get ⟨0, h⟩).prev_hash = "genesis") ∧
    (∀ i (h : i + 1 < (appendAll inputs).length),
      ((appendAll inputs).get ⟨i + 1, h⟩).prev_hash
        = ((appendAll inputs).get ⟨i, Nat.lt_of_succ_lt h⟩).hash) ∧
    (∀ i (h : i < (appendAll inputs).length),
      ((appendAll inputs).get ⟨i, h⟩).hash
        = sha256Hex (canonicalUnsignedString ((appendAll inputs).get ⟨i, h⟩))) := by
  have hg := appendAll_good inputs
  exact ⟨fun h => goodFrom_head hg h, fun i h => goodFrom_link hg i h,
    fun i h => goodFrom_hash_get hg i h⟩

/-- Witness for C2 at a concrete one-event log. -/
theorem audit_append_chain_invariant_witness :
    0 < (appendAll [sampleEvent]).length ∧
    ((appendAll [sampleEvent]).get
      ⟨0, (by decide : 0 < (appendAll [sampleEvent]).length)⟩).prev_hash
      = "genesis" :=
  ⟨by decide, (audit_append_chain_invariant [sampleEvent]).1 (by decide)⟩

/-- C3: `verify_audit_log` accepts the empty log and every log appended by
`append_audit_event`; altering one event's `action` field (to a string whose
canonical object hashes differently, which any concrete alteration does short
of a SHA-256 collision) makes it return `valid = false` with an error naming
that event's id. -/
theorem verify_audit_log_sound :
    (verifyAuditLog []).valid = true ∧
    (∀ inputs : List AuditEvent, (verifyAuditLog (appendAll inputs)).valid = true) ∧
    (∀ (inputs : List AuditEvent) (i : Nat) (a : String)
        (hi : i < (appendAll inputs).length),
      a ≠ ((appendAll inputs).get ⟨i, hi⟩).action →
      sha256Hex (canonicalUnsignedString
          { (appendAll inputs).get ⟨i, hi⟩ with action := a })
        ≠ ((appendAll inputs).get ⟨i, hi⟩).hash →
      (verifyAuditLog (alterActionAt (appendAll inputs) i a)).valid = false ∧
      (verifyAuditLog (alterActionAt (appendAll inputs) i a)).error
        = some ("hash mismatch at event " ++ ((appendAll inputs).get ⟨i, hi⟩).id)) := by
  refine ⟨rfl, ?_, ?_⟩
  · intro inputs
    unfold verifyAuditLog
    by_cases hemp : (appendAll inputs).isEmpty
    · simp [hemp]
    · rw [if_neg hemp, verifyGo_of_good _ (appendAll_good inputs)]
  · intro inputs i a hi _ hbad
    have hg := appendAll_good inputs
    have hlen := length_alterActionAt (appendAll inputs) i a
    have hne : (alterActionAt (appendAll inputs) i a).isEmpty = false := by
      rcases halt : alterActionAt (appendAll inputs) i a with _ | ⟨x, xs⟩
      · rw [halt] at hlen
        simp at hlen
        omega
      · rfl
    have := verifyGo_tamper ((alterActionAt (appendAll inputs) i a).length)
      hg i a hi hbad
    unfold verifyAuditLog
    rw [if_neg (by simp [hne]), this]
    exact ⟨rfl, rfl⟩

/-- Witness for C3: tampering with the single event of a concrete log is
detected, with the SHA-256 side conditions evaluated concretely. -/
theorem verify_audit_log_sound_witness :
    (verifyAuditLog (alterActionAt (appendAll [sampleEvent]) 0 "x")).valid = false ∧
    (verifyAuditLog (alterActionAt (appendAll [sampleEvent]) 0 "x")).error
      = some "hash mismatch at event e1" := by
  have h := verify_audit_log_sound.2.2 [sampleEvent] 0 "x"
    (by decide) (by decide) (by decide)
  refine ⟨h.1, ?_⟩
  rw [h.2]
  decide

theorem take_trunc {α : Type} (l : List α) :
    (if l.length > 10000 then l.take 10000 else l) = l.take 10000 := by
  split
  · rfl
  · next h => rw [List.take_of_length_le (by omega)]

theorem pushReceipt_receipts (env : TimeEnv) (rid : String) (s : ControlPlaneState)
    (req : ActionPolicyRequest) (res : ReceiptResult) (reason : String) :
    ∃ rc : ActionReceipt,
      (pushReceipt env rid s req res reason).receipts = (rc :: s.receipts).take 10000 ∧
      rc.id = rid :=
  ⟨⟨rid, env.fmt env.now, req.actor_id, req.actor_role, req.action,
    req.resource, req.destination, res, reason, req.context⟩, take_trunc _, rfl⟩

theorem pushReceipt_approvals (env : TimeEnv) (rid : String) (s : ControlPlaneState)
    (req : ActionPolicyRequest) (res : ReceiptResult) (reason : String) :
    (pushReceipt env rid s req res reason).approvals = s.approvals := rfl

theorem pushReceipt_access (env : TimeEnv) (rid : String) (s : ControlPlaneState)
    (req : ActionPolicyRequest) (res : ReceiptResult) (reason : String) :
    (pushReceipt env rid s req res reason).access_state = s.access_state := rfl

theorem pushReceipt_rules (env : TimeEnv) (rid : String) (s : ControlPlaneState)
    (req : ActionPolicyRequest) (res : ReceiptResult) (reason : String) :
    (pushReceipt env rid s req res reason).policy_rules = s.policy_rules := rfl

/-- Every branch of `evaluate_action` produces exactly one receipt at index 0
(truncated at 10,000), appends zero or one approvals, and touches nothing
else of the state. -/
theorem evaluateAction_shape (env : TimeEnv) (rid aidf : String)
    (s : ControlPlaneState) (req : ActionPolicyRequest) :
    ∃ (rc : ActionReceipt) (t : List ApprovalRequest),
      (evaluateAction env rid aidf s req).1.receipts = (rc :: s.receipts).take 10000 ∧
      rc.id = rid ∧
      (evaluateAction env rid aidf s req).1.approvals = s.approvals ++ t ∧
      (evaluateAction env rid aidf s req).1.access_state = s.access_state ∧
      (evaluateAction env rid aidf s req).1.policy_rules = s.policy_rules ∧
      (evaluateAction env rid aidf s req).2.receipt_id = rid := by
  cases hacc : canAccessView env s.access_state s.access_state.active_view with
  | false =>
    simp only [evaluateAction, hacc, Bool.false_eq_true, if_false]
    obtain ⟨rc, hr, hid⟩ := pushReceipt_receipts env rid s req ReceiptResult.denied
      "access plan does not permit the current workspace view"
    exact ⟨rc, [], hr, hid, by rw [pushReceipt_approvals, List.append_nil],
      rfl, rfl, trivial⟩
  | true =>
    simp only [evaluateAction, hacc, if_true]
    cases hfind : s.policy_rules.find? (fun rule => ruleMatches rule req) with
    | none =>
      simp only [hfind]
      obtain ⟨rc, hr, hid⟩ := pushReceipt_receipts env rid s req ReceiptResult.denied
        "no matching policy rule"
      exact ⟨rc, [], hr, hid, by rw [pushReceipt_approvals, List.append_nil],
        rfl, rfl, trivial⟩
    | some rule =>
      simp only [hfind]
      cases hra : rule.require_approval with
      | false =>
        simp only [hra, Bool.false_eq_true, if_false]
        obtain ⟨rc, hr, hid⟩ := pushReceipt_receipts env rid s req ReceiptResult.allowed
          "policy allowed"
        exact ⟨rc, [], hr, hid, by rw [pushReceipt_approvals, List.append_nil],
          rfl, rfl, trivial⟩
      | true =>
        simp only [hra, if_true]
        cases hapid : req.approval_id with
        | none =>
          simp only [hapid]
          obtain ⟨rc, hr, hid⟩ := pushReceipt_receipts env rid
            { s with approvals := s.approvals ++ [newApprovalOf env aidf req] }
            req ReceiptResult.pendingApproval "action requires approval"
          exact ⟨rc, _, hr, hid, pushReceipt_approvals env rid _ req _ _,
            rfl, rfl, trivial⟩
        | some eid =>
          simp only [hapid]
          cases happr : s.approvals.find? (fun approval => approval.id == eid) with
          | none =>
            simp only [happr]
            obtain ⟨rc, hr, hid⟩ := pushReceipt_receipts env rid s req
              ReceiptResult.denied "approval not found"
            exact ⟨rc, [], hr, hid, by rw [pushReceipt_approvals, List.append_nil],
              rfl, rfl, trivial⟩
          | some approval =>
            simp only [happr]
            cases hm : approvalMatchesRequest approval req with
            | false =>
              simp only [hm, Bool.false_eq_true, if_false]
              obtain ⟨rc, hr, hid⟩ := pushReceipt_receipts env rid s req
                ReceiptResult.denied "approval does not match action request"
              exact ⟨rc, [], hr, hid, by rw [pushReceipt_approvals, List.append_nil],
                rfl, rfl, trivial⟩
            | true =>
              simp only [hm, if_true]
              cases hst : approval.status with
              | approved =>
                simp only [hst]
                obtain ⟨rc, hr, hid⟩ := pushReceipt_receipts env rid s req
                  ReceiptResult.allowed "approved action"
                exact ⟨rc, [], hr, hid, by rw [pushReceipt_approvals, List.append_nil],
                  rfl, rfl, trivial⟩
              | rejected =>
                simp only [hst]
                obtain ⟨rc, hr, hid⟩ := pushReceipt_receipts env rid s req
                  ReceiptResult.denied "approval rejected"
                exact ⟨rc, [], hr, hid, by rw [pushReceipt_approvals, List.append_nil],
                  rfl, rfl, trivial⟩
              | pending =>
                simp only [hst]
                obtain ⟨rc, hr, hid⟩ := pushReceipt_receipts env rid s req
                  ReceiptResult.pendingApproval "approval is still pending"
                exact ⟨rc, [], hr, hid, by rw [pushReceipt_approvals, List.append_nil],
                  rfl, rfl, trivial⟩

/-- C8: every `evaluate_action` call, whatever branch it takes, appends
exactly one receipt at index 0 of `receipts`, the decision carries its id,
the list is truncated at 10,000 entries, and the surviving old receipts are
untouched (the new list is the old one behind the fresh receipt, cut at the
bound). -/
theorem evaluate_action_one_receipt (env : TimeEnv) (rid aidf : String)
    (s : ControlPlaneState) (req : ActionPolicyRequest) :
    ∃ rc : ActionReceipt,
      (evaluateAction env rid aidf s req).1.receipts = (rc :: s.receipts).take 10000 ∧
      rc.id = rid ∧
      (evaluateAction env rid aidf s req).2.receipt_id = rid ∧
      (evaluateAction env rid aidf s req).1.receipts.length ≤ 10000 := by
  obtain ⟨rc, t, h1, h2, h3, h4, h5, h6⟩ := evaluateAction_shape env rid aidf s req
  exact ⟨rc, h1, h2, h6, by rw [h1]; exact List.length_take_le _ _⟩

/-- C9: with the active view accessible, a request matching no enabled rule
is denied with reason `"no matching policy rule"` and no approval id; when
some enabled rule matches, the first match in list order alone decides the
outcome (evaluating against just that rule yields the same decision). -/
theorem evaluate_action_rule_selection (env : TimeEnv) (rid aidf : String)
    (s : ControlPlaneState) (req : ActionPolicyRequest)
    (hacc : canAccessView env s.access_state s.access_state.active_view = true) :
    (s.policy_rules.find? (fun rule => ruleMatches rule req) = none →
      (evaluateAction env rid aidf s req).2
        = ⟨false, false, "no matching policy rule", none, rid⟩) ∧
    (∀ r, s.policy_rules.find? (fun rule => ruleMatches rule req) = some r →
      (evaluateAction env rid aidf s req).2
        = (evaluateAction env rid aidf { s with policy_rules := [r] } req).2) := by
  constructor
  · intro hfind
    simp only [evaluateAction, hacc, if_true, hfind]
  · intro r hfind
    have hm0 := List.find?_some hfind
    have hm : ruleMatches r req = true := hm0
    have hfind1 : [r].find? (fun rule => ruleMatches rule req) = some r := by
      simp [List.find?, hm]
    simp only [evaluateAction, hacc, if_true, hfind, hfind1]
    cases hra : r.require_approval with
    | false => simp only [hra, Bool.false_eq_true, if_false]
    | true =>
      simp only [hra, if_true]
      cases hapid : req.approval_id with
      | none => simp only [hapid]
      | some eid =>
        simp only [hapid]
        cases happr : s.approvals.find? (fun approval => approval.id == eid) with
        | none => simp only [happr]
        | some approval =>
          simp only [happr]
          cases hm2 : approvalMatchesRequest approval req with
          | false => simp only [hm2, Bool.false_eq_true, if_false]
          | true =>
            simp only [hm2, if_true]
            cases approval.status <;> rfl

/-- Witness for C9 at a concrete state whose five default rules match
nothing for an unknown role. -/
theorem evaluate_action_rule_selection_witness :
    canAccessView emptyEnv sampleState.access_state sampleState.access_state.active_view
      = true ∧
    (evaluateAction emptyEnv "r1" "a1" sampleState ghostReq).2
      = ⟨false, false, "no matching policy rule", none, "r1"⟩ :=
  ⟨by decide,
   (evaluate_action_rule_selection emptyEnv "r1" "a1" sampleState ghostReq
     (by decide)).1 (by decide)⟩

theorem find?_id_append_fresh (l : List ApprovalRequest) (x : ApprovalRequest)
    (aid : String) (hfresh : ∀ a ∈ l, a.id ≠ aid) (hx : x.id = aid) :
    (l ++ [x]).find? (fun a => a.id == aid) = some x := by
  induction l with
  | nil =>
    simp only [List.nil_append]
    exact List.find?_cons_of_pos _ (by simp [hx])
  | cons a rest ih =>
    rw [List.cons_append,
      List.find?_cons_of_neg _ (by simp [hfresh a (by simp)])]
    exact ih (fun b hb => hfresh b (by simp [hb]))

theorem resolveInList_append_fresh (st : ApprovalStatus) (role dAt : String)
    (reason : Option String) (aid : String) (l : List ApprovalRequest)
    (x : ApprovalRequest) (hfresh : ∀ a ∈ l, a.id ≠ aid) (hx : x.id = aid) :
    resolveInList st role dAt reason aid (l ++ [x])
      = some (l ++ [decideApproval st role dAt reason x],
          decideApproval st role dAt reason x) := by
  induction l with
  | nil => simp [resolveInList, hx, decideApproval]
  | cons a rest ih =>
    have ha : (a.id == aid) = false := beq_eq_false_iff_ne.mpr (hfresh a (by simp))
    rw [List.cons_append]
    simp only [resolveInList, ha, Bool.false_eq_true, if_false]
    rw [ih (fun b hb => hfresh b (by simp [hb]))]
    simp

theorem resolveInList_of_find? (st : ApprovalStatus) (role dAt : String)
    (reason : Option String) (aid : String) (l : List ApprovalRequest)
    (appr : ApprovalRequest) (h : l.find? (fun a => a.id == aid) = some appr) :
    ∃ l', resolveInList st role dAt reason aid l
        = some (l', decideApproval st role dAt reason appr)
      ∧ l'.find? (fun a => a.id == aid) = some (decideApproval st role dAt reason appr) := by
  induction l with
  | nil => simp [List.find?] at h
  | cons a rest ih =>
    cases hid : (a.id == aid) with
    | true =>
      have ha : a = appr := by
        have h2 := h
        simp only [List.find?_cons, hid] at h2
        exact Option.some.inj h2
      subst ha
      refine ⟨decideApproval st role dAt reason a :: rest, ?_, ?_⟩
      · simp [resolveInList, hid, decideApproval]
      · exact List.find?_cons_of_pos _ (by simpa [decideApproval] using hid)
    | false =>
      simp only [List.find?_cons, hid] at h
      obtain ⟨l', h1, h2⟩ := ih h
      refine ⟨a :: l', ?_, ?_⟩
      · simp [resolveInList, hid, h1]
      · rw [List.find?_cons_of_neg _ (by simp [hid])]
        exact h2

/-- C4: a request matching a `require_approval` rule with no `approval_id`
is denied pending approval with the fresh approval id, a Pending
`ApprovalRequest` with that id now exists; after
`resolve_approval(id, "admin", true, _)` succeeds, replaying the identical
request with `approval_id = id` is allowed without requiring approval. -/
theorem approval_workflow_roundtrip
    (env1 env2 env3 : TimeEnv) (rid1 rid2 aidFresh aid2 : String)
    (s : ControlPlaneState) (req : ActionPolicyRequest) (rule : PolicyRule)
    (hnone : req.approval_id = none)
    (hacc1 : canAccessView env1 s.access_state s.access_state.active_view = true)
    (hfind : s.policy_rules.find? (fun r => ruleMatches r req) = some rule)
    (hra : rule.require_approval = true)
    (hfresh : ∀ a ∈ s.approvals, a.id ≠ aidFresh)
    (hacc3 : canAccessView env3 s.access_state s.access_state.active_view = true) :
    (evaluateAction env1 rid1 aidFresh s req).2.allowed = false ∧
    (evaluateAction env1 rid1 aidFresh s req).2.requires_approval = true ∧
    (evaluateAction env1 rid1 aidFresh s req).2.approval_id = some aidFresh ∧
    (∃ a ∈ (evaluateAction env1 rid1 aidFresh s req).1.approvals,
      a.id = aidFresh ∧ a.status = ApprovalStatus.pending) ∧
    ∃ s2 out,
      resolveApproval env2 (evaluateAction env1 rid1 aidFresh s req).1 aidFresh
        "admin" true none = Except.ok (s2, out) ∧
      (evaluateAction env3 rid2 aid2 s2
        { req with approval_id := some aidFresh }).2.allowed = true ∧
      (evaluateAction env3 rid2 aid2 s2
        { req with approval_id := some aidFresh }).2.requires_approval = false := by
  have hstep : evaluateAction env1 rid1 aidFresh s req
      = (pushReceipt env1 rid1
          { s with approvals := s.approvals ++ [newApprovalOf env1 aidFresh req] }
          req ReceiptResult.pendingApproval "action requires approval",
         ⟨false, true, "action requires approval", some aidFresh, rid1⟩) := by
    simp only [evaluateAction, hacc1, if_true, hfind, hra, hnone]
    rfl
  rw [hstep]
  refine ⟨rfl, rfl, rfl, ?_, ?_⟩
  · refine ⟨newApprovalOf env1 aidFresh req, ?_, rfl, rfl⟩
    rw [pushReceipt_approvals]
    simp
  · refine ⟨⟨(pushReceipt env1 rid1
        { s with approvals := s.approvals ++ [newApprovalOf env1 aidFresh req] }
        req ReceiptResult.pendingApproval "action requires approval").version,
      s.access_state, s.policy_rules, s.retention,
      (pushReceipt env1 rid1
        { s with approvals := s.approvals ++ [newApprovalOf env1 aidFresh req] }
        req ReceiptResult.pendingApproval "action requires approval").receipts,
      s.approvals ++ [resolvedApprovalOf env1 env2 aidFresh req]⟩,
      resolvedApprovalOf env1 env2 aidFresh req, ?_, ?_, ?_⟩
    · have hres := resolveInList_append_fresh ApprovalStatus.approved "admin"
        (env2.fmt env2.now) none aidFresh s.approvals
        (newApprovalOf env1 aidFresh req) hfresh rfl
      simp only [resolveApproval, pushReceipt_approvals, reduceIte]
      rw [hres, if_pos (show ("admin" == "owner" || "admin" == "admin") = true from by decide)]
      rfl
    · have happr := find?_id_append_fresh s.approvals
        (resolvedApprovalOf env1 env2 aidFresh req) aidFresh hfresh rfl
      have hfind3 : s.policy_rules.find?
          (fun r => ruleMatches r { req with approval_id := some aidFresh })
            = some rule := hfind
      have hmr : approvalMatchesRequest (resolvedApprovalOf env1 env2 aidFresh req)
          { req with approval_id := some aidFresh } = true := by
        simp [approvalMatchesRequest, resolvedApprovalOf, decideApproval, newApprovalOf]
      have hst : (resolvedApprovalOf env1 env2 aidFresh req).status
          = ApprovalStatus.approved := rfl
      simp only [evaluateAction, hacc3, if_true, hfind3, hra, happr, hmr, hst]
    · have happr := find?_id_append_fresh s.approvals
        (resolvedApprovalOf env1 env2 aidFresh req) aidFresh hfresh rfl
      have hfind3 : s.policy_rules.find?
          (fun r => ruleMatches r { req with approval_id := some aidFresh })
            = some rule := hfind
      have hmr : approvalMatchesRequest (resolvedApprovalOf env1 env2 aidFresh req)
          { req with approval_id := some aidFresh } = true := by
        simp [approvalMatchesRequest, resolvedApprovalOf, decideApproval, newApprovalOf]
      have hst : (resolvedApprovalOf env1 env2 aidFresh req).status
          = ApprovalStatus.approved := rfl
      simp only [evaluateAction, hacc3, if_true, hfind3, hra, happr, hmr, hst]

/-- C5: an `approval_id` naming a stored approval whose
actor/action/resource/destination do not all match the request is denied
with reason `"approval does not match action request"`, the stored approvals
are left unchanged (not consumed), and a later request that does match the
approval still replays its stored verdict (Approved allows, Rejected denies,
Pending stays pending). -/
theorem approval_mismatch_not_consumed
    (env env2 : TimeEnv) (rid aidf rid2 aidf2 : String) (s : ControlPlaneState)
    (req req2 : ActionPolicyRequest) (rule rule2 : PolicyRule) (eid : String)
    (appr : ApprovalRequest)
    (hacc : canAccessView env s.access_state s.access_state.active_view = true)
    (hfind : s.policy_rules.find? (fun r => ruleMatches r req) = some rule)
    (hra : rule.require_approval = true)
    (hid : req.approval_id = some eid)
    (happr : s.approvals.find? (fun a => a.id == eid) = some appr)
    (hmis : approvalMatchesRequest appr req = false)
    (hacc2 : canAccessView env2 s.access_state s.access_state.active_view = true)
    (hfind2 : s.policy_rules.find? (fun r => ruleMatches r req2) = some rule2)
    (hra2 : rule2.require_approval = true)
    (hid2 : req2.approval_id = some eid)
    (hmatch2 : approvalMatchesRequest appr req2 = true) :
    (evaluateAction env rid aidf s req).2
      = ⟨false, false, "approval does not match action request", some eid, rid⟩ ∧
    (evaluateAction env rid aidf s req).1.approvals = s.approvals ∧
    ((appr.status = ApprovalStatus.approved →
      (evaluateAction env2 rid2 aidf2 (evaluateAction env rid aidf s req).1 req2).2.allowed
        = true) ∧
     (appr.status = ApprovalStatus.rejected →
      (evaluateAction env2 rid2 aidf2 (evaluateAction env rid aidf s req).1 req2).2
        = ⟨false, false, "approval rejected", some eid, rid2⟩) ∧
     (appr.status = ApprovalStatus.pending →
      (evaluateAction env2 rid2 aidf2 (evaluateAction env rid aidf s req).1 req2).2.requires_approval
        = true)) := by
  have hstep : evaluateAction env rid aidf s req
      = (pushReceipt env rid s req ReceiptResult.denied
          "approval does not match action request",
         ⟨false, false, "approval does not match action request", some eid, rid⟩) := by
    simp only [evaluateAction, hacc, if_true, hfind, hra, hid, happr, hmis,
      Bool.false_eq_true, if_false]
  rw [hstep]
  refine ⟨rfl, pushReceipt_approvals env rid s req _ _, ?_, ?_, ?_⟩
  · intro hst
    simp only [evaluateAction, pushReceipt_access, pushReceipt_rules,
      pushReceipt_approvals, hacc2, if_true, hfind2, hra2, hid2, happr, hmatch2, hst]
  · intro hst
    simp only [evaluateAction, pushReceipt_access, pushReceipt_rules,
      pushReceipt_approvals, hacc2, if_true, hfind2, hra2, hid2, happr, hmatch2, hst]
  · intro hst
    simp only [evaluateAction, pushReceipt_access, pushReceipt_rules,
      pushReceipt_approvals, hacc2, if_true, hfind2, hra2, hid2, happr, hmatch2, hst]

/-- C6 (amended): a decided approval is *not* terminal against
`resolve_approval` — any further call with a valid role and that id
overwrites `status`, `decided_by`, `decided_at` and `reason` regardless of
the current status; `evaluate_action`, by contrast, never modifies a stored
approval (it can only append new ones). -/
theorem resolve_approval_overwrites
    (env : TimeEnv) (s : ControlPlaneState) (aid role : String) (approved : Bool)
    (reason : Option String) (appr : ApprovalRequest)
    (hrole : role = "owner" ∨ role = "admin")
    (hfound : s.approvals.find? (fun a => a.id == aid) = some appr) :
    (∃ s2, resolveApproval env s aid role approved reason
        = Except.ok (s2, decideApproval
            (if approved then ApprovalStatus.approved else ApprovalStatus.rejected)
            role (env.fmt env.now) reason appr)
      ∧ s2.approvals.find? (fun a => a.id == aid)
        = some (decideApproval
            (if approved then ApprovalStatus.approved else ApprovalStatus.rejected)
            role (env.fmt env.now) reason appr)) ∧
    (∀ (rid aidf : String) (req : ActionPolicyRequest),
      ∃ t, (evaluateAction env rid aidf s req).1.approvals = s.approvals ++ t) := by
  constructor
  · obtain ⟨l', h1, h2⟩ := resolveInList_of_find?
      (if approved then ApprovalStatus.approved else ApprovalStatus.rejected)
      role (env.fmt env.now) reason aid s.approvals appr hfound
    have hcheck : (role == "owner" || role == "admin") = true := by
      rcases hrole with rfl | rfl <;> decide
    refine ⟨{ s with approvals := l' }, ?_, ?_⟩
    · unfold resolveApproval
      rw [if_pos hcheck, h1]
    · exact h2
  · intro rid aidf req
    obtain ⟨rc, t, h1, h2, h3, h4, h5, h6⟩ := evaluateAction_shape env rid aidf s req
    exact ⟨t, h3⟩

/-- C6 counterexample: resolving an already-Approved approval again flips it
to Rejected with fresh decider metadata — the stored record is not
terminal, refuting the claim as stated. -/
theorem resolve_approval_terminal_counterexample :
    decidedApproval.status = ApprovalStatus.approved ∧
    resolveApproval emptyEnv stateWithDecided "ap9" "admin" false none
      = Except.ok ({ stateWithDecided with approvals :=
            [decideApproval ApprovalStatus.rejected "admin" "ts" none decidedApproval] },
          decideApproval ApprovalStatus.rejected "admin" "ts" none decidedApproval) ∧
    (decideApproval ApprovalStatus.rejected "admin" "ts" none decidedApproval).status
      = ApprovalStatus.rejected :=
  ⟨rfl, rfl, rfl⟩

theorem resolve_approval_overwrites_witness :
    ∃ s2, resolveApproval emptyEnv stateWithDecided "ap9" "admin" false none
      = Except.ok (s2, decideApproval ApprovalStatus.rejected "admin"
          (emptyEnv.fmt emptyEnv.now) none decidedApproval) := by
  obtain ⟨⟨s2, h1, h2⟩, h3⟩ := resolve_approval_overwrites emptyEnv stateWithDecided
    "ap9" "admin" false none decidedApproval (Or.inr rfl) (by decide)
  exact ⟨s2, h1⟩

theorem approval_workflow_roundtrip_witness :
    ∃ s2 out,
      resolveApproval emptyEnv
        (evaluateAction emptyEnv "r1" "ap1" sampleState governedReq).1
        "ap1" "admin" true none = Except.ok (s2, out) ∧
      (evaluateAction emptyEnv "r2" "a2" s2
        { governedReq with approval_id := some "ap1" }).2.allowed = true ∧
      (evaluateAction emptyEnv "r2" "a2" s2
        { governedReq with approval_id := some "ap1" }).2.requires_approval = false := by
  have h := approval_workflow_roundtrip emptyEnv emptyEnv emptyEnv "r1" "r2" "ap1" "a2"
    sampleState governedReq operatorGovernedChanges rfl (by decide) (by decide) rfl
    (by decide) (by decide)
  exact h.2.2.2.2

theorem approval_mismatch_not_consumed_witness :
    (evaluateAction emptyEnv "r1" "a1" stateWithMismatch governedReqOther).2
      = ⟨false, false, "approval does not match action request", some "ap5", "r1"⟩ ∧
    (evaluateAction emptyEnv "r2" "a2"
        (evaluateAction emptyEnv "r1" "a1" stateWithMismatch governedReqOther).1
        governedReqMatch).2.allowed = true := by
  have h := approval_mismatch_not_consumed emptyEnv emptyEnv "r1" "a1" "r2" "a2"
    stateWithMismatch governedReqOther governedReqMatch operatorGovernedChanges
    operatorGovernedChanges "ap5" mismatchApproval (by decide) (by decide) rfl rfl
    (by decide) (by decide) (by decide) (by decide) rfl rfl (by decide)
  exact ⟨h.1, h.2.2.1 rfl⟩

example : (parseSignerEntry validSignerEntry 0) = Except.ok ("k1", List.replicate 32 0) := by
  decide

example : decodeBase64Flexible "AAAAAAAAAAAAAAAAAAAAAAAAAAAAAAAAAAAAAAAAAAAAAAAAAAAAAAAAAAAAAAAAAAAAAAAAAAAAAAAAAAAAAA==" = some (List.replicate 64 0) := by decide

example : (parseSignerEntry "" 0).isOk = false := by decide

example : decodeBase64Flexible "AA" = some [0] := by decide

example : decodeBase64Flexible "AB" = none := by decide

/-- C1 (amended): when `signature_required = true`, a release is staged and
its signature verification fails, `promote()` returns an error and sets
`last_verification_error` — but the staged release is **discarded**
(`staged_release` is taken before verification and never restored on the
failure path), not retained as the claim states. -/
theorem promote_verification_failure_discards_staged
    (ed : EdOracle) (nowStr : String) (rollout : RolloutState)
    (staged : ReleaseDescriptor) (e : String)
    (hstaged : rollout.staged_release = some staged)
    (hverify : verifyReleaseSignature ed { rollout with staged_release := none } staged
      = Except.error e) :
    rolloutPromote ed nowStr rollout
      = ({ rollout with
            staged_release := none
            last_verification_error := some e
            updated_at := nowStr },
         Except.error ("staged release failed signature verification: " ++ e)) := by
  simp only [rolloutPromote, hstaged, hverify]

/-- C1 counterexample: after a failed promotion of a concrete staged release
the persisted state has `staged_release = none` — the staged release is
discarded, refuting the claim's retention clause; the error and
`last_verification_error` clauses do hold. -/
theorem promote_retains_staged_counterexample :
    failingRollout.staged_release = some stagedRelease ∧
    failingRollout.signature_required = true ∧
    (rolloutPromote constFalseEd "t1" failingRollout).1.staged_release = none ∧
    (rolloutPromote constFalseEd "t1" failingRollout).1.last_verification_error
      = some "release signature verification failed for staged release" ∧
    (rolloutPromote constFalseEd "t1" failingRollout).2
      = Except.error ("staged release failed signature verification: " ++
          "release signature verification failed for staged release") := by
  refine ⟨rfl, rfl, ?_, ?_, ?_⟩ <;> decide

theorem promote_verification_failure_discards_staged_witness :
    rolloutPromote constFalseEd "t1" failingRollout
      = ({ failingRollout with
            staged_release := none
            last_verification_error :=
              some "release signature verification failed for staged release"
            updated_at := "t1" },
         Except.error ("staged release failed signature verification: " ++
           "release signature verification failed for staged release")) :=
  promote_verification_failure_discards_staged constFalseEd "t1" failingRollout
    stagedRelease "release signature verification failed for staged release"
    rfl (by decide)

/-- C7 (amended): the load-time self-heal only requires *some*
trusted-signer entry to parse: every state returned by load satisfies
`signature_required = true → at least one entry parses`; when none parses
(including an empty list) the loader resets `signature_required`, clears the
signers and records the reason. -/
theorem rollout_load_signing_invariant (s : RolloutState) :
    ((normalizeRolloutState s).signature_required = true →
      (normalizeRolloutState s).trusted_signers.enum.any
        (fun p => (parseSignerEntry p.2 p.1).isOk) = true) ∧
    (s.signature_required = true →
      s.trusted_signers.enum.any (fun p => (parseSignerEntry p.2 p.1).isOk) = false →
      normalizeRolloutState s
        = { s with
            signature_required := false
            trusted_signers := []
            last_verification_error := some
              "legacy signer configuration detected; signing policy reset and requires reconfiguration" }) := by
  constructor
  · intro h
    by_cases hreq : s.signature_required = true
    · by_cases hany : s.trusted_signers.enum.any
          (fun p => (parseSignerEntry p.2 p.1).isOk) = true
      · have : normalizeRolloutState s = s := by
          simp [normalizeRolloutState, hreq, hany]
        rw [this]
        exact hany
      · have : (normalizeRolloutState s).signature_required = false := by
          simp [normalizeRolloutState, hreq, hany]
        rw [this] at h
        exact absurd h (by simp)
    · have : normalizeRolloutState s = s := by
        simp [normalizeRolloutState, hreq]
      rw [this] at h
      exact absurd h hreq
  · intro h1 h2
    simp [normalizeRolloutState, h1, h2]

/-- C7 counterexample: a load-normalized state keeps
`signature_required = true` although its first trusted-signer entry does not
parse (a later entry does) — refuting the claim that every entry parses
after load. -/
theorem rollout_load_all_signers_counterexample :
    normalizeRolloutState mixedRollout = mixedRollout ∧
    mixedRollout.signature_required = true ∧
    (parseSignerEntry (mixedRollout.trusted_signers.getD 0 "") 0).isOk = false := by
  refine ⟨?_, rfl, ?_⟩ <;> decide

theorem rollout_load_signing_invariant_witness :
    normalizeRolloutState legacyRollout
      = { legacyRollout with
          signature_required := false
          trusted_signers := []
          last_verification_error := some
            "legacy signer configuration detected; signing policy reset and requires reconfiguration" } :=
  (rollout_load_signing_invariant legacyRollout).2 rfl (by decide)

theorem verifySignersLoop_reaches_error (ed : EdOracle) (hint : String)
    (msg : String) (sig : List Nat) :
    ∀ (l : List String) (start i : Nat), i < l.length →
      exceptIsOk (parseSignerEntry (l.getD i "") (start + i)) = false →
      (∀ j, j < i → ∃ kid key,
        parseSignerEntry (l.getD j "") (start + j) = Except.ok (kid, key) ∧ hint ≠ kid) →
      ∃ e, verifySignersLoop ed (some hint) msg sig start l = Except.error e := by
  intro l
  induction l with
  | nil => intro start i hi _ _; exact absurd hi (by simp)
  | cons entry rest ih =>
    intro start i hi hbad hskip
    cases i with
    | zero =>
      rw [Nat.add_zero] at hbad
      have hbad0 : exceptIsOk (parseSignerEntry entry start) = false := hbad
      cases hp : parseSignerEntry entry start with
      | error e => exact ⟨e, by simp [verifySignersLoop, hp]⟩
      | ok pair =>
        rw [hp] at hbad0
        simp [exceptIsOk] at hbad0
    | succ n =>
      obtain ⟨kid, key, hok, hne⟩ := hskip 0 (Nat.succ_pos n)
      rw [Nat.add_zero] at hok
      have hok2 : parseSignerEntry entry start = Except.ok (kid, key) := hok
      have hbad2 : exceptIsOk (parseSignerEntry (rest.getD n "") (start + 1 + n))
          = false := by
        have h0 : exceptIsOk (parseSignerEntry (rest.getD n "") (start + (n + 1)))
            = false := hbad
        rw [show start + 1 + n = start + (n + 1) from by omega]
        exact h0
      have hskip2 : ∀ j, j < n → ∃ kid2 key2,
          parseSignerEntry (rest.getD j "") (start + 1 + j) = Except.ok (kid2, key2) ∧
          hint ≠ kid2 := by
        intro j hj
        obtain ⟨kid2, key2, hokj, hnej⟩ := hskip (j + 1) (Nat.succ_lt_succ hj)
        refine ⟨kid2, key2, ?_, hnej⟩
        rw [show start + 1 + j = start + (j + 1) from by omega]
        exact hokj
      obtain ⟨e, he⟩ := ih (start + 1) n (Nat.lt_of_succ_lt_succ hi) hbad2 hskip2
      refine ⟨e, ?_⟩
      have hcond : (hint != kid) = true := bne_iff_ne.mpr hne
      simp only [verifySignersLoop, hok2, Option.any, hcond, if_true]
      exact he

/-- C10: with `signature_required = true`, valid checksums and a parseable
hinted signature, once the signer iteration reaches an entry that fails to
parse (all earlier entries parsed but were skipped by the key hint),
`verify_release_signature` returns an error — whatever the Ed25519 oracle
would say about any later signer. -/
theorem malformed_signer_blocks_verification
    (ed : EdOracle) (rollout : RolloutState) (release : ReleaseDescriptor)
    (hint sraw : String) (sig : List Nat) (i : Nat)
    (hreq : rollout.signature_required = true)
    (hchk : validateSha256Hex release.checksum_sha256 "checksum_sha256" = Except.ok ())
    (hsbom : ∀ sbom, release.sbom_checksum_sha256 = some sbom →
      validateSha256Hex sbom "sbom_checksum_sha256" = Except.ok ())
    (hsig : release.signature = some sraw)
    (hparse : parseSignatureValue sraw = Except.ok (some hint, sig))
    (hi : i < rollout.trusted_signers.length)
    (hbad : exceptIsOk (parseSignerEntry (rollout.trusted_signers.getD i "") i) = false)
    (hskip : ∀ j, j < i → ∃ kid key,
      parseSignerEntry (rollout.trusted_signers.getD j "") j = Except.ok (kid, key) ∧
      hint ≠ kid) :
    ∃ e, verifyReleaseSignature ed rollout release = Except.error e := by
  have hne : rollout.trusted_signers.isEmpty = false := by
    cases h : rollout.trusted_signers with
    | nil => rw [h] at hi; exact absurd hi (by simp)
    | cons a l => rfl
  obtain ⟨e, he⟩ := verifySignersLoop_reaches_error ed hint
    (releaseSigningPayload release) sig rollout.trusted_signers 0 i
    hi (by simpa using hbad) (fun j hj => by simpa using hskip j hj)
  refine ⟨e, ?_⟩
  cases hsb : release.sbom_checksum_sha256 with
  | none =>
    simp only [verifyReleaseSignature, hchk, hsb, hreq, if_true, hsig, hparse, hne,
      Bool.false_eq_true, if_false]
    exact he
  | some sbom =>
    simp only [verifyReleaseSignature, hchk, hsb, hsbom sbom hsb, hreq, if_true,
      hsig, hparse, hne, Bool.false_eq_true, if_false]
    exact he

theorem malformed_signer_blocks_verification_witness :
    (∃ e, verifyReleaseSignature constTrueEd mixedSignersRollout hintedRelease
      = Except.error e) ∧
    parseSignerEntry (mixedSignersRollout.trusted_signers.getD 1 "") 1
      = Except.ok ("k1", List.replicate 32 0) ∧
    constTrueEd.verify (List.replicate 32 0)
      (releaseSigningPayload hintedRelease) (List.replicate 64 0) = true := by
  refine ⟨?_, by decide, rfl⟩
  exact malformed_signer_blocks_verification constTrueEd mixedSignersRollout
    hintedRelease "k1" hintedSig (List.replicate 64 0) 0 rfl (by decide)
    (fun sbom h => nomatch h) rfl (by decide) (by decide) (by decide)
    (fun j hj => absurd hj (Nat.not_lt_zero j))

end Zeroclaw
